import Mathlib

/-!
Shallow embedding of the matching / aggregation core of the NI job-search
repository (src/app.py and src/job_source.py).

Modelling conventions:
* Python floats are modelled by real numbers; decimal literals such as 0.55
  denote the exact rationals they name.
* Python's `round` rounds halves to even (banker's rounding); it is modelled
  explicitly by `pythonRound` below.
* Python's `list.sort(key=..., reverse=True)` is a stable descending sort;
  it is modelled by Mathlib's stable `List.insertionSort` with the
  corresponding "greater-or-tied" relation.
* External library primitives that the repository calls but does not define
  are uninterpreted parameters: `md5h` for `hashlib.md5(...)%...`-style use,
  `sha10` for the sha256 prefix `stable_hash(cv)[:10]`, and `simOf`/`termsOf`
  for the cosine similarities and overlap terms computed by scikit-learn's
  TfidfVectorizer in app.py.  job_source.py's own similarity (`_similarity`)
  is pure Python and is embedded in full.
* Python `set`s are modelled by duplicate-free lists (`List.dedup`); every
  place the source consumes a set it either takes its size, tests
  membership, or sorts it, all order-independent.
-/

namespace NIJobs

/-! ### Shared text helpers -/

/-- Python's `\s` whitespace class restricted to ASCII (space, tab, newline,
carriage return, vertical tab, form feed); the inputs in this development are
ASCII. -/
def pyIsSpace (c : Char) : Bool :=
  c = ' ' || c = '\t' || c = '\n' || c = '\r' || c = '\x0b' || c = '\x0c'

/-- Python's `str.lower()`, ASCII part (all inputs in this development are
ASCII). -/
def pyLower (s : String) : String := ⟨s.data.map Char.toLower⟩

/-- Python's `str.strip()`: drop leading and trailing whitespace. -/
def pyStrip (s : String) : String :=
  ⟨((s.data.dropWhile pyIsSpace).reverse.dropWhile pyIsSpace).reverse⟩

/-- Maximal runs of non-whitespace characters.  The fuel argument is the
length of the remaining input; every step consumes at least one character
and one unit of fuel, so starting with the full length the fuel never runs
out. -/
def wsChunksAux : Nat → List Char → List (List Char)
  | 0, _ => []
  | _ + 1, [] => []
  | fuel + 1, c :: rest =>
    if pyIsSpace c then wsChunksAux fuel rest
    else (c :: rest.takeWhile (fun d => !pyIsSpace d)) ::
      wsChunksAux fuel (rest.dropWhile (fun d => !pyIsSpace d))

/-- app.py `clean_text`: `re.sub(r"\s+", " ", s).strip()`.  Collapsing
whitespace runs to single spaces and stripping is the same as joining the
maximal non-whitespace chunks with single spaces. -/
def cleanText (s : String) : String :=
  String.intercalate " " ((wsChunksAux s.data.length s.data).map List.asString)

/-- Python 3 `round` to the nearest integer, halves to even. -/
noncomputable def pythonRound (x : ℝ) : ℤ :=
  if Int.fract x = 1 / 2 then (if Even ⌊x⌋ then ⌊x⌋ else ⌊x⌋ + 1) else round x

/-- Substring test on character lists, modelling Python's `needle in hay`. -/
def containsSub : List Char → List Char → Bool
  | needle, [] => needle.isEmpty
  | needle, c :: rest => needle.isPrefixOf (c :: rest) || containsSub needle rest

/-- Substring test on strings, modelling Python's `needle in hay`. -/
def substrB (needle hay : String) : Bool := containsSub needle.data hay.data

/-! ### app.py data model -/

/-- app.py's `Job` dataclass. -/
structure AJob where
  source : String
  title : String
  link : String
  location : String
  organisation : String
  summary : String
  closing : String
  published : String
deriving DecidableEq, Repr, Inhabited

/-- One entry of app.py `rank_jobs`' result list
`(job, score_int, cosine_float, matched_terms)`. -/
structure ARes where
  job : AJob
  score : ℤ
  cos : ℝ
  terms : List String

noncomputable instance : Inhabited ARes := ⟨⟨default, 0, 0, []⟩⟩

/-- app.py `calibrate_score`, jitter part: `((h % 700) / 100.0) - 3.5` where
`h` is the md5 digest of the seed as an integer (`md5h` is the uninterpreted
md5, as a natural number). -/
noncomputable def jitterOf (md5h : String → Nat) (seed : String) : ℝ :=
  ((md5h seed % 700 : ℕ) : ℝ) / 100 - 3.5

/-- app.py `calibrate_score`: concave curve `35 + 60 * cos_sim ** 0.55`,
plus deterministic jitter, rounded, clamped to `[30, 98]`. -/
noncomputable def calibrate_score (md5h : String → Nat) (cos_sim : ℝ) (seed : String) : ℤ :=
  let base : ℝ := 35 + 60 * cos_sim ^ (0.55 : ℝ)
  max 30 (min 98 (pythonRound (base + jitterOf md5h seed)))

/-- app.py `rank_jobs`' per-job seed `f"{cv_id}|{j.link}|{j.title}"`, with
`cv_id` (the sha256 prefix of the cleaned CV) passed in. -/
def seedOf (cvId : String) (j : AJob) : String :=
  cvId ++ "|" ++ j.link ++ "|" ++ j.title

instance aresDescRel : DecidableRel (fun a b : ARes => b.score ≤ a.score) :=
  fun a b => Int.decLe b.score a.score

/-- app.py `rank_jobs`.  The TF-IDF cosine similarities and the matched-term
extraction are computed by scikit-learn in the source; they enter here as the
uninterpreted parameters `simOf` and `termsOf` (the code applies them to each
job of the batch).  `md5h`/`sha10` are the uninterpreted hash primitives.
The final `ranked.sort(key=lambda x: x[1], reverse=True)` is the stable
descending sort on the integer score. -/
noncomputable def rank_jobs (md5h : String → Nat) (sha10 : String → String)
    (simOf : AJob → ℝ) (termsOf : AJob → List String)
    (cv_text : String) (jobs : List AJob) : List ARes :=
  let cvc := cleanText cv_text
  if cvc = "" then jobs.map (fun j => ⟨j, 0, 0, []⟩)
  else
    let ranked := jobs.map (fun j =>
      ⟨j, calibrate_score md5h (simOf j) (seedOf (sha10 cvc) j), simOf j, termsOf j⟩)
    ranked.insertionSort (fun a b => b.score ≤ a.score)

/-- app.py deduplication of fetched jobs (main body, lines 333-340): the key
is the pair `(j.link.strip(), j.title.strip())`; first occurrence wins. -/
def appDedupAux : List (String × String) → List AJob → List AJob
  | _, [] => []
  | seen, j :: rest =>
    let key := (pyStrip j.link, pyStrip j.title)
    if key ∈ seen then appDedupAux seen rest
    else j :: appDedupAux (key :: seen) rest

/-- app.py deduplication by `(link, title)` combo. -/
def appDedup (jobs : List AJob) : List AJob := appDedupAux [] jobs

/-! ### job_source.py data model and text pipeline -/

/-- job_source.py's `Job` dataclass.  The optional `published` datetime is
modelled by an optional integer timestamp; `datetime.isoformat` followed by
`dateutil.parser.parse` is a lossless round trip, so the result records carry
the same value. -/
structure JJob where
  source : String
  title : String
  company : String
  location : String
  url : String
  summary : String
  published : Option ℤ
deriving DecidableEq, Repr, Inhabited

/-- job_source.py `_STOPWORDS`. -/
def STOP_WORDS : List String :=
  ["the", "and", "or", "a", "an", "to", "of", "in", "for", "on", "with", "at", "by",
   "from", "as", "is", "are", "be", "this", "that", "it", "you", "your", "we", "our",
   "they", "their", "will", "can", "may", "not", "have", "has", "i", "me", "my", "he",
   "she", "them", "but", "if", "so", "than", "then", "into", "over", "under", "within"]

/-- First character of the token regex `[a-z0-9][a-z0-9\-\_]{1,}`. -/
def isHeadChar (c : Char) : Bool := c.isLower || c.isDigit

/-- Continuation character of the token regex. -/
def isTailChar (c : Char) : Bool := isHeadChar c || c = '-' || c = '_'

/-- Leftmost, non-overlapping, greedy matching of `[a-z0-9][a-z0-9\-\_]{1,}`
(as `re.findall` does): a match needs a head character followed by at least
one continuation character and then extends maximally.  The fuel argument is
the length of the remaining input; every step consumes at least one character
and one unit of fuel, so starting with the full length the fuel never runs
out. -/
def findTokensAux : Nat → List Char → List String
  | 0, _ => []
  | _ + 1, [] => []
  | fuel + 1, c :: rest =>
    if isHeadChar c then
      match rest with
      | d :: _ =>
        if isTailChar d then
          (c :: rest.takeWhile isTailChar).asString ::
            findTokensAux fuel (rest.dropWhile isTailChar)
        else findTokensAux fuel rest
      | [] => []
    else findTokensAux fuel rest

/-- All regex matches of `[a-z0-9][a-z0-9\-\_]{1,}` in a character list. -/
def findTokens (cs : List Char) : List String := findTokensAux cs.length cs

/-- job_source.py `_tokens`: lower-case, find the regex matches, drop
stop words and tokens of length at most 2. -/
def jsTokens (text : String) : List String :=
  (findTokens (pyLower text).data).filter
    (fun w => !(STOP_WORDS.contains w) && decide (2 < w.length))

/-- Code-point lexicographic comparison of character lists, as Python's
string `<=` used by `sorted`. -/
def charListLe : List Char → List Char → Bool
  | [], _ => true
  | _ :: _, [] => false
  | a :: as, b :: bs => if a < b then true else if b < a then false else charListLe as bs

/-- Python `sorted` on a list of strings (code-point lexicographic). -/
def pySortedStrings (l : List String) : List String :=
  l.insertionSort (fun a b => charListLe a.data b.data = true)

/-- job_source.py `_similarity`: token-overlap similarity returning
`(similarity in [0,1], overlapping keywords)`.  Python sets are modelled by
`List.dedup`; `sorted(...)` canonicalises them before use.  The square root
makes the first component a real number. -/
noncomputable def _similarity (cv_text job_text : String) : ℝ × List String :=
  let cvToks := jsTokens cv_text
  let jobToks := jsTokens job_text
  if jobToks = [] then (0, [])
  else
    let cvSet := cvToks.dedup
    let jobSet := jobToks.dedup
    if cvSet = [] then ((0.15 : ℝ), (pySortedStrings jobSet).take 10)
    else
      let inter := cvSet.filter (fun w => jobSet.contains w)
      let sim : ℝ := (inter.length : ℝ) /
        max 1 (Real.sqrt ((cvSet.length : ℝ) * (jobSet.length : ℝ)))
      (max 0 (min 1 sim), (pySortedStrings inter).take 20)

/-- job_source.py's curated bonus phrases (second bonus group). -/
def PRIORITY_ORGS : List String :=
  ["hmrc", "hm revenue", "ministry of justice", "home office", "cabinet office"]

/-- job_source.py `_human_score`: `55 + round(40 * sim ** 0.65)`, plus +3 for
"civil service" and +2 for a priority organisation appearing in the job text,
clamped to `[40, 95]`. -/
noncomputable def _human_score (sim : ℝ) (j : JJob) : ℤ :=
  let curved : ℝ := sim ^ (0.65 : ℝ)
  let s0 : ℤ := 55 + pythonRound (40 * curved)
  let text := pyLower (j.title ++ " " ++ j.company ++ " " ++ j.summary)
  let s1 : ℤ := s0 + (if substrB "civil service" text then 3 else 0)
  let s2 : ℤ := s1 + (if PRIORITY_ORGS.any (fun x => substrB x text) then 2 else 0)
  max 40 (min 95 s2)

/-- The text `score_jobs` scores a job by:
`f"{j.title}\n{j.company}\n{j.location}\n{j.summary}"`. -/
def jobTextOf (j : JJob) : String :=
  j.title ++ "\n" ++ j.company ++ "\n" ++ j.location ++ "\n" ++ j.summary

/-- One dictionary of job_source.py `score_jobs`' result list. -/
structure SRes where
  score : ℤ
  why : List String
  source : String
  title : String
  company : String
  location : String
  url : String
  summary : String
  published : Option ℤ
deriving DecidableEq, Repr, Inhabited

/-- The sort key of `score_jobs`: `(r["score"], parsed published or epoch)`;
a missing publication date falls back to `datetime(1970, 1, 1)`, timestamp
0. -/
def sortKey (r : SRes) : ℤ × ℤ := (r.score, r.published.getD 0)

/-- Lexicographic order on integer pairs, as Python compares tuples. -/
def pairLexLe (p q : ℤ × ℤ) : Prop := p.1 < q.1 ∨ (p.1 = q.1 ∧ p.2 ≤ q.2)

instance pairLexLeDec : DecidableRel pairLexLe := fun p q => by
  unfold pairLexLe; infer_instance

/-- Descending comparison used by `results.sort(key=_sort_key, reverse=True)`:
`a` may stay before `b` when `a`'s key is lexicographically at least `b`'s. -/
def scoreDescRel (a b : SRes) : Prop := pairLexLe (sortKey b) (sortKey a)

instance scoreDescRelDec : DecidableRel scoreDescRel := fun a b => by
  unfold scoreDescRel; infer_instance

/-- job_source.py `score_jobs`: score every job with `_similarity` and
`_human_score`, copy the listing fields into the result dictionary, then sort
by score descending with newest publication first among ties (stable). -/
noncomputable def score_jobs (cv_text : String) (jobs : List JJob) : List SRes :=
  let results := jobs.map (fun j =>
    let p := _similarity cv_text (jobTextOf j)
    { score := _human_score p.1 j, why := p.2,
      source := j.source, title := j.title, company := j.company,
      location := j.location, url := j.url, summary := j.summary,
      published := j.published })
  results.insertionSort scoreDescRel

/-! ### job_source.py aggregation and filters -/

/-- job_source.py `fetch_all_jobs` deduplication (lines 342-352): skip jobs
with empty url or an already-seen url; first occurrence wins. -/
def dedupeByUrlAux : List String → List JJob → List JJob
  | _, [] => []
  | seen, j :: rest =>
    if j.url = "" ∨ j.url ∈ seen then dedupeByUrlAux seen rest
    else j :: dedupeByUrlAux (j.url :: seen) rest

/-- job_source.py deduplication by url over the concatenated batches. -/
def dedupeByUrl (jobs : List JJob) : List JJob := dedupeByUrlAux [] jobs

/-- job_source.py `BLOCK_COMPANY`. -/
def BLOCK_COMPANY : List String :=
  ["ni civil service", "northern ireland civil service", "department of justice",
   "department for the economy", "department of health", "department of finance",
   "daera", "education authority"]

/-- The blocked-company predicate
`any(b in (job.company or "").lower() for b in BLOCK_COMPANY)`. -/
def blockedCompany (company : String) : Bool :=
  BLOCK_COMPANY.any (fun b => substrB b (pyLower company))

/-- The company filter applied unconditionally inside `fetch_nijobs`
(lines 253-258): blocked jobs are skipped, with no fallback. -/
def nijobsFilter (jobs : List JJob) : List JJob :=
  jobs.filter (fun j => !(blockedCompany j.company))

/-- job_source.py `fetch_indeed_rss` location allow-list. -/
def NI_LOCATIONS : List String :=
  ["belfast", "northern ireland", "derry", "londonderry", "lisburn", "newry",
   "antrim", "tyrone", "fermanagh", "down", "armagh"]

/-- The per-job keep condition of `fetch_indeed_rss` (lines 303-313): not a
blocked company, and the location mentions Northern Ireland. -/
def indeedKeep (j : JJob) : Bool :=
  !(blockedCompany j.company) &&
    NI_LOCATIONS.any (fun x => substrB x (pyLower j.location))

/-- The filter applied unconditionally inside `fetch_indeed_rss`. -/
def indeedFilter (jobs : List JJob) : List JJob := jobs.filter indeedKeep

/-! ### scikit-learn vocabulary model for app.py's vectorizer

app.py hands the candidate text and the job texts to
`TfidfVectorizer(stop_words="english", ngram_range=(1, 2), min_df=1)`.
scikit-learn's `fit_transform` raises
`ValueError: empty vocabulary; perhaps the documents only contain stop words`
when no document contributes a term.  Its tokenizer keeps maximal runs of at
least two word characters (pattern `\b\w\w+\b`) of the lower-cased text and
removes its fixed English stop-word list; bigrams are built from the
surviving unigrams, so the vocabulary is empty exactly when every document
has zero surviving unigrams.  The stop-word list is external data and enters
as the parameter `stop`. -/

/-- Word character of the default scikit-learn token pattern, ASCII part. -/
def isWordChar (c : Char) : Bool := c.isAlphanum || c = '_'

/-- Maximal runs of word characters of length at least 2 (fuel as in
`findTokensAux`). -/
def wordRunsAux : Nat → List Char → List String
  | 0, _ => []
  | _ + 1, [] => []
  | fuel + 1, c :: rest =>
    if isWordChar c then
      let run := c :: rest.takeWhile isWordChar
      let rem := rest.dropWhile isWordChar
      if 2 ≤ run.length then run.asString :: wordRunsAux fuel rem
      else wordRunsAux fuel rem
    else wordRunsAux fuel rest

/-- scikit-learn unigrams of one document surviving stop-word removal. -/
def sklearnTerms (stop : List String) (doc : String) : List String :=
  (wordRunsAux (pyLower doc).data.length (pyLower doc).data).filter
    (fun w => !(stop.contains w))

/-- app.py `rank_jobs` with scikit-learn's empty-vocabulary failure made
explicit: on a nonempty cleaned CV the vectorizer is fitted on the CV
document plus one document
`f"{j.title}. {j.organisation}. {j.location}. {j.summary}"` per job, and
raises when the vocabulary is empty.  Otherwise it behaves as `rank_jobs`. -/
noncomputable def rank_jobsE (stop : List String) (md5h : String → Nat)
    (sha10 : String → String) (simOf : AJob → ℝ) (termsOf : AJob → List String)
    (cv_text : String) (jobs : List AJob) : Except String (List ARes) :=
  let cvc := cleanText cv_text
  if cvc = "" then .ok (jobs.map (fun j => ⟨j, 0, 0, []⟩))
  else
    let docs := cvc :: jobs.map (fun j =>
      cleanText (j.title ++ ". " ++ j.organisation ++ ". " ++ j.location ++ ". " ++ j.summary))
    if docs.all (fun d => (sklearnTerms stop d).isEmpty) then
      .error "empty vocabulary"
    else
      .ok ((jobs.map (fun j =>
        ⟨j, calibrate_score md5h (simOf j) (seedOf (sha10 cvc) j), simOf j,
          termsOf j⟩)).insertionSort (fun a b => b.score ≤ a.score))

/-! ### Helper lemmas -/

theorem pythonRound_intCast (n : ℤ) : pythonRound ((n : ℝ)) = n := by
  unfold pythonRound
  rw [Int.fract_intCast, if_neg (by norm_num), round_intCast]

theorem pairLexLe_total (p q : ℤ × ℤ) : pairLexLe p q ∨ pairLexLe q p := by
  unfold pairLexLe
  rcases lt_trichotomy p.1 q.1 with h | h | h
  · exact Or.inl (Or.inl h)
  · rcases le_total p.2 q.2 with h2 | h2
    · exact Or.inl (Or.inr ⟨h, h2⟩)
    · exact Or.inr (Or.inr ⟨h.symm, h2⟩)
  · exact Or.inr (Or.inl h)

theorem pairLexLe_trans {p q r : ℤ × ℤ} (h1 : pairLexLe p q) (h2 : pairLexLe q r) :
    pairLexLe p r := by
  unfold pairLexLe at h1 h2 ⊢
  rcases h1 with h1 | ⟨e1, l1⟩ <;> rcases h2 with h2 | ⟨e2, l2⟩
  · exact Or.inl (h1.trans h2)
  · exact Or.inl (lt_of_lt_of_le h1 (le_of_eq e2))
  · exact Or.inl (lt_of_le_of_lt (le_of_eq e1) h2)
  · exact Or.inr ⟨e1.trans e2, l1.trans l2⟩

instance : IsTotal SRes scoreDescRel :=
  ⟨fun a b => pairLexLe_total (sortKey b) (sortKey a)⟩

instance : IsTrans SRes scoreDescRel :=
  ⟨fun _ _ _ hab hbc => pairLexLe_trans hbc hab⟩

instance aresTotal : IsTotal ARes (fun a b : ARes => b.score ≤ a.score) :=
  ⟨fun a b => le_total b.score a.score⟩

instance aresTrans : IsTrans ARes (fun a b : ARes => b.score ≤ a.score) :=
  ⟨fun _ _ _ hab hbc => le_trans hbc hab⟩

theorem pairwise_of_forall {α : Type _} {R : α → α → Prop} (h : ∀ a b, R a b) :
    ∀ l : List α, l.Pairwise R
  | [] => List.Pairwise.nil
  | a :: l => List.Pairwise.cons (fun b _ => h a b) (pairwise_of_forall h l)

theorem filter_eq_nil_of_forall {α : Type _} (p : α → Bool) :
    ∀ l : List α, (∀ a ∈ l, p a = true) → l.filter (fun a => !(p a)) = []
  | [], _ => rfl
  | a :: l, h => by
    have ha := h a (List.mem_cons_self a l)
    simp only [List.filter_cons, ha, Bool.not_true, Bool.false_eq_true, if_false]
    exact filter_eq_nil_of_forall p l (fun b hb => h b (List.mem_cons_of_mem a hb))

/-! ### Concrete inputs used by witnesses and counterexamples -/

/-- Constant hash oracle. -/
def hash0 : String → Nat := fun _ => 0

/-- Hash oracle whose residue mod 700 is 350, giving zero jitter. -/
def hash350 : String → Nat := fun _ => 350

/-- Constant sha-prefix oracle. -/
def sha0 : String → String := fun _ => ""

/-- Constant zero cosine-similarity oracle. -/
noncomputable def sim0 : AJob → ℝ := fun _ => 0

/-- Constant empty matched-terms oracle. -/
def terms0 : AJob → List String := fun _ => []

/-- An app.py job with empty fields. -/
def ajEmpty : AJob := ⟨"", "", "", "", "", "", "", ""⟩

/-- app.py jobs with nonempty summaries (for the empty-CV scenario). -/
def ajS1 : AJob := ⟨"s", "Analyst", "u1", "NI", "Org", "analysis of data", "", ""⟩

def ajS2 : AJob := ⟨"s", "Clerk", "u2", "NI", "Org", "filing and records", "", ""⟩

def ajS3 : AJob := ⟨"s", "Driver", "u3", "NI", "Org", "driving deliveries", "", ""⟩

/-- app.py jobs sharing a url but with different titles. -/
def ajDup1 : AJob := ⟨"s", "A", "https://x/1", "", "", "", "", ""⟩

def ajDup2 : AJob := ⟨"s", "B", "https://x/1", "", "", "", "", ""⟩

/-- job_source.py jobs sharing url "https://x/1" with different titles. -/
def jjDup1 : JJob := ⟨"a", "T1", "", "", "https://x/1", "", none⟩

def jjDup2 : JJob := ⟨"b", "T2", "", "", "https://x/1", "", none⟩

def jjDup3 : JJob := ⟨"c", "T3", "", "", "https://x/2", "", none⟩

/-- A job whose company is blocked by `BLOCK_COMPANY`. -/
def jjBlocked : JJob := ⟨"NIJobs", "Officer", "NI Civil Service", "Belfast", "u", "s", none⟩

/-- The C8 scenario: candidate text and the two listings. -/
def cvC8 : String := "data analyst sql python"

def j1C8 : JJob := ⟨"s1", "", "", "", "u1", "data analyst sql python", none⟩

def j2C8 : JJob := ⟨"s2", "", "", "", "u2", "forklift driver warehouse", none⟩

/-- The C9 scenario: two app.py jobs identical except for the link. -/
def jL1 : AJob := ⟨"src", "T", "L1", "loc", "org", "sum", "", ""⟩

def jL2 : AJob := ⟨"src", "T", "L2", "loc", "org", "sum", "", ""⟩

/-- Hash oracle distinguishing the two C9 seeds. -/
def hashC9 : String → Nat := fun s => if s = seedOf "" jL1 then 350 else 50

/-! ### Claims -/

/-- C4: for every candidate text and listing list (in particular every
non-empty one), the ranking operations return their results sorted by
non-increasing calibrated score; job_source.py's `score_jobs` further breaks
ties by more recent published timestamp first. -/
theorem C4_rank_sorted_desc :
    (∀ (md5h : String → Nat) (sha10 : String → String) (simOf : AJob → ℝ)
        (termsOf : AJob → List String) (cv : String) (jobs : List AJob),
      (rank_jobs md5h sha10 simOf termsOf cv jobs).Pairwise
        (fun a b : ARes => b.score ≤ a.score)) ∧
    (∀ (cv : String) (jobs : List JJob),
      (score_jobs cv jobs).Pairwise
        (fun a b : SRes => b.score < a.score ∨
          (b.score = a.score ∧ b.published.getD 0 ≤ a.published.getD 0))) := by
  constructor
  · intro md5h sha10 simOf termsOf cv jobs
    unfold rank_jobs
    by_cases h : cleanText cv = ""
    · rw [if_pos h, List.pairwise_map]
      exact pairwise_of_forall (fun a b => le_refl _) jobs
    · rw [if_neg h]
      exact (List.sorted_insertionSort _ _).imp (fun hx => hx)
  · intro cv jobs
    unfold score_jobs
    exact (List.sorted_insertionSort scoreDescRel _).imp (fun hx => hx)

/-- C7: scoring is deterministic; two calls with identical candidate text and
identical listing data yield identical results (the embedded operations are
pure functions of their arguments; the only hash used, md5, is itself a
function of the seed). -/
theorem C7_deterministic (cv1 cv2 : String) (jobs1 jobs2 : List JJob)
    (md5h : String → Nat) (c1 c2 : ℝ) (s1 s2 : String)
    (hcv : cv1 = cv2) (hj : jobs1 = jobs2) (hc : c1 = c2) (hs : s1 = s2) :
    score_jobs cv1 jobs1 = score_jobs cv2 jobs2 ∧
    calibrate_score md5h c1 s1 = calibrate_score md5h c2 s2 := by
  subst hcv; subst hj; subst hc; subst hs
  exact ⟨rfl, rfl⟩

/-- C7 witness at concrete inputs. -/
theorem C7_deterministic_witness :
    score_jobs "data analyst" [jjDup1] = score_jobs "data analyst" [jjDup1] ∧
    calibrate_score hash0 0 "seed" = calibrate_score hash0 0 "seed" :=
  C7_deterministic "data analyst" "data analyst" [jjDup1] [jjDup1] hash0 0 0
    "seed" "seed" rfl rfl rfl rfl

/-- C10: `score_jobs` returns exactly one result per input job, and the
multiset of (source, title, company, location, url, summary) field tuples of
the results equals that of the input jobs: scoring copies the listing fields
unchanged and only adds score/why/published. -/
theorem C10_frame (cv : String) (jobs : List JJob) :
    (score_jobs cv jobs).length = jobs.length ∧
    ((score_jobs cv jobs).map
        (fun r => (r.source, r.title, r.company, r.location, r.url, r.summary))).Perm
      (jobs.map (fun j => (j.source, j.title, j.company, j.location, j.url, j.summary))) := by
  unfold score_jobs
  constructor
  · rw [List.length_insertionSort, List.length_map]
  · refine ((List.perm_insertionSort scoreDescRel _).map _).trans ?_
    rw [List.map_map]
    exact List.Perm.refl _

/-- C1 counterexample: with empty candidate text, app.py's `rank_jobs`
returns a result whose score is 0, which is below the floor 30 — the claim
that no result ever carries a score below the floor, even for empty
candidate text, is false on app.py. -/
theorem C1_counterexample :
    (rank_jobs hash0 sha0 sim0 terms0 "" [ajS1]).map ARes.score = [0] ∧
    ¬ (30 ≤ (0 : ℤ)) := by
  exact ⟨rfl, by decide⟩

/-- C1 amended: `_human_score` (hence every `score_jobs` result) always lies
in [40, 95], and app.py's `calibrate_score` always lies in [30, 98]; every
`rank_jobs` result score lies in [30, 98] provided the cleaned candidate
text is non-empty (when it is empty, scores are 0, below the floor). -/
theorem C1_amended_bands :
    (∀ (cv : String) (jobs : List JJob) (r : SRes),
      r ∈ score_jobs cv jobs → 40 ≤ r.score ∧ r.score ≤ 95) ∧
    (∀ (md5h : String → Nat) (c : ℝ) (s : String),
      30 ≤ calibrate_score md5h c s ∧ calibrate_score md5h c s ≤ 98) ∧
    (∀ (md5h : String → Nat) (sha10 : String → String) (simOf : AJob → ℝ)
        (termsOf : AJob → List String) (cv : String) (jobs : List AJob),
      cleanText cv ≠ "" → ∀ r ∈ rank_jobs md5h sha10 simOf termsOf cv jobs,
        30 ≤ r.score ∧ r.score ≤ 98) := by
  refine ⟨?_, ?_, ?_⟩
  · intro cv jobs r hr
    unfold score_jobs at hr
    rw [List.mem_insertionSort] at hr
    obtain ⟨j, _, rfl⟩ := List.mem_map.1 hr
    simp only [_human_score]
    exact ⟨le_max_left _ _, max_le (by norm_num) (min_le_left _ _)⟩
  · intro md5h c s
    unfold calibrate_score
    exact ⟨le_max_left _ _, max_le (by norm_num) (min_le_left _ _)⟩
  · intro md5h sha10 simOf termsOf cv jobs h r hr
    unfold rank_jobs at hr
    rw [if_neg h, List.mem_insertionSort] at hr
    obtain ⟨j, _, rfl⟩ := List.mem_map.1 hr
    unfold calibrate_score
    exact ⟨le_max_left _ _, max_le (by norm_num) (min_le_left _ _)⟩

/-- C1 witness: the amended statement applied at concrete inputs. -/
theorem C1_amended_bands_witness :
    cleanText "data analyst" ≠ "" ∧
    (30 ≤ ((rank_jobs hash350 sha0 sim0 terms0 "data analyst" [ajS1]).head!).score ∧
      ((rank_jobs hash350 sha0 sim0 terms0 "data analyst" [ajS1]).head!).score ≤ 98) := by
  have hne : rank_jobs hash350 sha0 sim0 terms0 "data analyst" [ajS1] ≠ [] := by
    intro h
    have hl : (rank_jobs hash350 sha0 sim0 terms0 "data analyst" [ajS1]).length = 1 := by
      unfold rank_jobs
      rw [if_neg (by decide), List.length_insertionSort, List.length_map]
      rfl
    rw [h] at hl
    exact absurd hl (by decide)
  exact ⟨by decide, C1_amended_bands.2.2 hash350 sha0 sim0 terms0 "data analyst" [ajS1]
    (by decide) _ (List.head!_mem_self hne)⟩

/-- C2 counterexample: with empty candidate text and three listings with
nonempty summaries, app.py's `rank_jobs` gives every result score 0 — which
is zero and is not the calibration floor (30 in app.py, 40 in
job_source.py). -/
theorem C2_counterexample :
    (rank_jobs hash0 sha0 sim0 terms0 "" [ajS1, ajS2, ajS3]).map
        (fun r => (r.score, r.terms)) = [(0, []), (0, []), (0, [])] ∧
    (0 : ℤ) ≠ 30 ∧ (0 : ℤ) ≠ 40 :=
  ⟨rfl, by decide, by decide⟩

/-- C2 amended: when the cleaned candidate text is empty, app.py's
`rank_jobs` returns every listing with score exactly 0 and empty matched
terms; job_source.py's `_similarity` instead returns the fixed baseline
similarity 0.15 together with a non-empty evidence list (the first 10
sorted job tokens) whenever the job text has tokens. -/
theorem C2_amended :
    (∀ (md5h : String → Nat) (sha10 : String → String) (simOf : AJob → ℝ)
        (termsOf : AJob → List String) (cv : String) (jobs : List AJob),
      cleanText cv = "" →
        rank_jobs md5h sha10 simOf termsOf cv jobs =
          jobs.map (fun j => (⟨j, 0, 0, []⟩ : ARes))) ∧
    (∀ jt : String, jsTokens jt ≠ [] →
      _similarity "" jt =
        ((0.15 : ℝ), (pySortedStrings (jsTokens jt).dedup).take 10) ∧
      (pySortedStrings (jsTokens jt).dedup).take 10 ≠ []) := by
  constructor
  · intro md5h sha10 simOf termsOf cv jobs h
    unfold rank_jobs
    rw [if_pos h]
  · intro jt h
    constructor
    · unfold _similarity
      rw [if_neg h, if_pos (show (jsTokens "").dedup = [] from rfl)]
    · have hd : (jsTokens jt).dedup ≠ [] :=
        fun hc => h ((List.dedup_eq_nil _).1 hc)
      have hlen : 0 < (pySortedStrings (jsTokens jt).dedup).length := by
        unfold pySortedStrings
        rw [List.length_insertionSort]
        exact List.length_pos.2 hd
      intro hc
      have hl := congrArg List.length hc
      rw [List.length_take] at hl
      simp only [List.length_nil] at hl
      omega

/-- C2 witness: the amended statement applied at concrete inputs. -/
theorem C2_amended_witness :
    cleanText "" = "" ∧
    rank_jobs hash0 sha0 sim0 terms0 "" [ajS1] =
      [ajS1].map (fun j => (⟨j, 0, 0, []⟩ : ARes)) ∧
    jsTokens "forklift driver warehouse" ≠ [] ∧
    _similarity "" "forklift driver warehouse" =
      ((0.15 : ℝ), (pySortedStrings (jsTokens "forklift driver warehouse").dedup).take 10) ∧
    (pySortedStrings (jsTokens "forklift driver warehouse").dedup).take 10 ≠ [] :=
  ⟨by decide, C2_amended.1 hash0 sha0 sim0 terms0 "" [ajS1] (by decide), by decide,
    (C2_amended.2 "forklift driver warehouse" (by decide)).1,
    (C2_amended.2 "forklift driver warehouse" (by decide)).2⟩

/-- The deduplicated prefix of the survivors is a sublist of the input
(stable order), for any seen set. -/
theorem dedupeByUrlAux_sublist : ∀ (seen : List String) (l : List JJob),
    (dedupeByUrlAux seen l).Sublist l
  | _, [] => List.Sublist.refl []
  | seen, j :: rest => by
    unfold dedupeByUrlAux
    by_cases h : j.url = "" ∨ j.url ∈ seen
    · rw [if_pos h]
      exact (dedupeByUrlAux_sublist seen rest).cons j
    · rw [if_neg h]
      exact (dedupeByUrlAux_sublist (j.url :: seen) rest).cons₂ j

/-- Among the survivors of url deduplication, a given non-empty url appears
exactly as often as the first matching entry of the input, provided it was
not already seen. -/
theorem dedupeByUrlAux_filter (u : String) (hu : u ≠ "") :
    ∀ (seen : List String) (l : List JJob),
      (dedupeByUrlAux seen l).filter (fun j => j.url == u) =
        if u ∈ seen then [] else (l.filter (fun j => j.url == u)).take 1
  | seen, [] => by
    by_cases h : u ∈ seen <;> simp [dedupeByUrlAux, h]
  | seen, j :: rest => by
    unfold dedupeByUrlAux
    by_cases hskip : j.url = "" ∨ j.url ∈ seen
    · rw [if_pos hskip, dedupeByUrlAux_filter u hu seen rest]
      by_cases hmem : u ∈ seen
      · rw [if_pos hmem, if_pos hmem]
      · rw [if_neg hmem, if_neg hmem]
        have hju : j.url ≠ u := by
          intro he
          rcases hskip with h0 | hseen
          · exact hu (he ▸ h0)
          · exact hmem (he ▸ hseen)
        rw [List.filter_cons, if_neg (by simp [hju])]
    · push_neg at hskip
      obtain ⟨hne, hnotin⟩ := hskip
      rw [if_neg (by push_neg; exact ⟨hne, hnotin⟩)]
      by_cases hju : j.url = u
      · rw [List.filter_cons, if_pos (by simp [hju]),
          dedupeByUrlAux_filter u hu (j.url :: seen) rest,
          if_pos (by rw [hju]; exact List.mem_cons_self u seen),
          if_neg (fun hc => hnotin (hju ▸ hc)),
          List.filter_cons, if_pos (by simp [hju])]
        rfl
      · rw [List.filter_cons, if_neg (by simp [hju]),
          dedupeByUrlAux_filter u hu (j.url :: seen) rest]
        by_cases hmem : u ∈ seen
        · rw [if_pos (List.mem_cons_of_mem _ hmem), if_pos hmem]
        · rw [if_neg (by
            intro hc
            rcases List.mem_cons.1 hc with he | hs
            · exact hju he.symm
            · exact hmem hs),
            if_neg hmem, List.filter_cons, if_neg (by simp [hju])]

/-- C3 counterexample: app.py deduplicates by the pair (link, title), so two
listings sharing the url "https://x/1" but with different titles both
survive — the claim that exactly one listing with that url is kept is false
for app.py's merge step. -/
theorem C3_counterexample :
    ((appDedup [ajDup1, ajDup2]).filter (fun j => j.link == "https://x/1")).length = 2 ∧
    (2 : ℕ) ≠ 1 := by
  exact ⟨by decide, by decide⟩

/-- C3 amended: job_source.py's `fetch_all_jobs` merge does deduplicate by
url with the first occurrence winning and stable order (the survivors form
a sublist of the concatenation, and each non-empty url is represented by
exactly the first matching listing); app.py's dedup instead keys on the
(link, title) pair, so two listings with the same url and different titles
both survive there. -/
theorem C3_amended (l : List JJob) (u : String) (hu : u ≠ "") :
    (dedupeByUrl l).Sublist l ∧
    (dedupeByUrl l).filter (fun j => j.url == u) =
      (l.filter (fun j => j.url == u)).take 1 := by
  refine ⟨dedupeByUrlAux_sublist [] l, ?_⟩
  rw [dedupeByUrl, dedupeByUrlAux_filter u hu [] l, if_neg (List.not_mem_nil u)]

/-- C3 witness: the amended statement applied at a concrete batch
concatenation with a duplicated url. -/
theorem C3_amended_witness :
    ("https://x/1" : String) ≠ "" ∧
    (dedupeByUrl [jjDup1, jjDup2, jjDup3]).Sublist [jjDup1, jjDup2, jjDup3] ∧
    (dedupeByUrl [jjDup1, jjDup2, jjDup3]).filter (fun j => j.url == "https://x/1") =
      ([jjDup1, jjDup2, jjDup3].filter (fun j => j.url == "https://x/1")).take 1 :=
  ⟨by decide, (C3_amended [jjDup1, jjDup2, jjDup3] "https://x/1" (by decide)).1,
    (C3_amended [jjDup1, jjDup2, jjDup3] "https://x/1" (by decide)).2⟩

/-- A filter whose predicate is false on every element of a list gives the
empty list. -/
theorem filter_false_nil {α : Type _} (p : α → Bool) :
    ∀ l : List α, (∀ a ∈ l, p a = false) → l.filter p = []
  | [], _ => rfl
  | a :: l, h => by
    rw [List.filter_cons_of_neg (by rw [h a (List.mem_cons_self a l)]; exact Bool.false_ne_true)]
    exact filter_false_nil p l (fun b hb => h b (List.mem_cons_of_mem a hb))

/-- C5 counterexample: the company filter of `fetch_nijobs` is applied
unconditionally; on a batch whose only listing has a blocked company it
removes every listing instead of being bypassed. -/
theorem C5_counterexample :
    nijobsFilter [jjBlocked] = [] ∧ ([jjBlocked] : List JJob) ≠ [] :=
  ⟨by decide, by decide⟩

/-- C5 amended: the repository applies its restrictive predicates
unconditionally, with no fallback: whenever the blocked-company predicate
matches every listing of a batch, `fetch_nijobs`' filter (and likewise
`fetch_indeed_rss`') returns the empty list, and no bypass diagnostic
exists — the pipeline can return zero results because of a filter. -/
theorem C5_amended (jobs : List JJob)
    (hb : ∀ j ∈ jobs, blockedCompany j.company = true) :
    nijobsFilter jobs = [] ∧ indeedFilter jobs = [] := by
  constructor
  · unfold nijobsFilter
    exact filter_false_nil _ jobs (fun j hj => by simp [hb j hj])
  · unfold indeedFilter
    exact filter_false_nil _ jobs (fun j hj => by
      unfold indeedKeep
      simp [hb j hj])

/-- C5 witness: the amended statement applied at a concrete blocked batch. -/
theorem C5_amended_witness :
    blockedCompany jjBlocked.company = true ∧
    nijobsFilter [jjBlocked] = [] ∧ indeedFilter [jjBlocked] = [] := by
  refine ⟨by decide, ?_, ?_⟩
  · exact (C5_amended [jjBlocked] (fun j hj => by
      rcases List.mem_singleton.1 hj with rfl
      decide)).1
  · exact (C5_amended [jjBlocked] (fun j hj => by
      rcases List.mem_singleton.1 hj with rfl
      decide)).2

/-- C6: evaluation of the code at the failing input.  app.py's `rank_jobs`
passes the documents straight to scikit-learn's TfidfVectorizer; for a
candidate text consisting only of stop words ("the the") and a job whose
document contains no word tokens, every document reduces to stop words and
`fit_transform` raises the empty-vocabulary ValueError instead of returning
scores — the scoring operation does throw, contradicting the claim (and the
code's otherwise graceful-degradation design).  `stop` is scikit-learn's
fixed English stop-word list, which contains "the". -/
theorem C6_stopword_input_raises (stop : List String) (md5h : String → Nat)
    (sha10 : String → String) (simOf : AJob → ℝ) (termsOf : AJob → List String)
    (hstop : "the" ∈ stop) :
    rank_jobsE stop md5h sha10 simOf termsOf "the the" [ajEmpty] =
      Except.error "empty vocabulary" := by
  have hthe : stop.contains "the" = true := List.elem_eq_true_of_mem hstop
  unfold rank_jobsE
  rw [if_neg (by decide)]
  have h1 : (sklearnTerms stop (cleanText "the the")).isEmpty = true := by
    unfold sklearnTerms
    rw [show (wordRunsAux (pyLower (cleanText "the the")).data.length
        (pyLower (cleanText "the the")).data) = ["the", "the"] from by decide]
    simp [List.filter_cons, hthe, hstop]
  have h2 : (sklearnTerms stop
      (cleanText (ajEmpty.title ++ ". " ++ ajEmpty.organisation ++ ". " ++
        ajEmpty.location ++ ". " ++ ajEmpty.summary))).isEmpty = true := by
    unfold sklearnTerms
    rw [show (wordRunsAux (pyLower (cleanText (ajEmpty.title ++ ". " ++ ajEmpty.organisation ++ ". " ++
        ajEmpty.location ++ ". " ++ ajEmpty.summary))).data.length
        (pyLower (cleanText (ajEmpty.title ++ ". " ++ ajEmpty.organisation ++ ". " ++
        ajEmpty.location ++ ". " ++ ajEmpty.summary))).data) = ([] : List String) from by decide]
    rfl
  rw [if_pos (by
    simp only [List.map_cons, List.map_nil, List.all_cons, List.all_nil]
    rw [h1, h2]
    rfl)]

/-- C6 witness: the failing evaluation at a concrete stop-word list. -/
theorem C6_stopword_input_raises_witness :
    ("the" ∈ (["the"] : List String)) ∧
    rank_jobsE ["the"] hash0 sha0 sim0 terms0 "the the" [ajEmpty] =
      Except.error "empty vocabulary" :=
  ⟨by decide, C6_stopword_input_raises ["the"] hash0 sha0 sim0 terms0 (by decide)⟩

/-- Evaluation of `calibrate_score` at zero similarity when the md5 residue
is 350: the jitter is exactly 0 and the score is 35. -/
theorem calibrate_at_zero_350 (md5h : String → Nat) (seed : String)
    (hm : md5h seed % 700 = 350) : calibrate_score md5h 0 seed = 35 := by
  unfold calibrate_score jitterOf
  rw [hm, Real.zero_rpow (by norm_num : (0.55:ℝ) ≠ 0)]
  dsimp only
  rw [show ((35:ℝ) + 60 * 0 + (((350:ℕ):ℝ) / 100 - 3.5)) = ((35:ℤ):ℝ) from by
    push_cast; ring]
  rw [pythonRound_intCast]
  decide

/-- Evaluation of `calibrate_score` at zero similarity when the md5 residue
is 50: the jitter is exactly -3 and the score is 32. -/
theorem calibrate_at_zero_50 (md5h : String → Nat) (seed : String)
    (hm : md5h seed % 700 = 50) : calibrate_score md5h 0 seed = 32 := by
  unfold calibrate_score jitterOf
  rw [hm, Real.zero_rpow (by norm_num : (0.55:ℝ) ≠ 0)]
  dsimp only
  rw [show ((35:ℝ) + 60 * 0 + (((50:ℕ):ℝ) / 100 - 3.5)) = ((32:ℤ):ℝ) from by
    push_cast; ring]
  rw [pythonRound_intCast]
  decide

/-- The deterministic jitter of `calibrate_score` is bounded by 3.5 points in
absolute value, for every hash function and seed. -/
theorem jitter_bound (md5h : String → Nat) (seed : String) :
    |jitterOf md5h seed| ≤ 3.5 := by
  unfold jitterOf
  rw [abs_le]
  have h0 : (0:ℝ) ≤ ((md5h seed % 700 : ℕ) : ℝ) := Nat.cast_nonneg _
  have h700 : ((md5h seed % 700 : ℕ) : ℝ) < 700 := by
    exact_mod_cast Nat.mod_lt _ (by norm_num)
  constructor
  · have : (0:ℝ) ≤ ((md5h seed % 700 : ℕ) : ℝ) / 100 := by positivity
    linarith
  · linarith

/-- C9: in app.py the calibrated score depends on the listing's link through
the seed of the deterministic md5 jitter (bounded by ±3.5 points): two jobs
identical in title, organisation, location and summary (hence identical
similarity — here the similarity oracle is constant) but with different
links get different scores whenever the md5 residues of their seeds differ
as stated. -/
theorem C9_link_jitter (md5h : String → Nat) (sha10 : String → String)
    (h1 : md5h (seedOf (sha10 (cleanText "data")) jL1) % 700 = 350)
    (h2 : md5h (seedOf (sha10 (cleanText "data")) jL2) % 700 = 50) :
    jL1.title = jL2.title ∧ jL1.organisation = jL2.organisation ∧
    jL1.location = jL2.location ∧ jL1.summary = jL2.summary ∧
    jL1.link ≠ jL2.link ∧
    (rank_jobs md5h sha10 sim0 terms0 "data" [jL1, jL2]).map ARes.score = [35, 32] ∧
    (35 : ℤ) ≠ 32 ∧
    (∀ (h : String → Nat) (s : String), |jitterOf h s| ≤ 3.5) := by
  refine ⟨rfl, rfl, rfl, rfl, by decide, ?_, by decide, jitter_bound⟩
  unfold rank_jobs
  rw [if_neg (by decide)]
  simp only [List.map_cons, List.map_nil]
  rw [show sim0 jL1 = 0 from rfl, show sim0 jL2 = 0 from rfl]
  rw [calibrate_at_zero_350 md5h _ h1, calibrate_at_zero_50 md5h _ h2]
  decide

/-- C9 witness: a concrete hash oracle realising the two residues. -/
theorem C9_link_jitter_witness :
    hashC9 (seedOf (sha0 (cleanText "data")) jL1) % 700 = 350 ∧
    hashC9 (seedOf (sha0 (cleanText "data")) jL2) % 700 = 50 ∧
    (rank_jobs hashC9 sha0 sim0 terms0 "data" [jL1, jL2]).map ARes.score = [35, 32] :=
  ⟨by decide, by decide,
    (C9_link_jitter hashC9 sha0 (by decide) (by decide)).2.2.2.2.2.1⟩

theorem sqrt_sixteen : Real.sqrt 16 = 4 := by
  rw [show (16:ℝ) = 4 ^ 2 from by norm_num]
  exact Real.sqrt_sq (by norm_num)

/-- In the C8 scenario the matching listing has full token overlap with the
candidate (4 shared tokens over a 4x4 geometric mean), hence similarity
exactly 1, with the sorted overlap as evidence. -/
theorem similarity_c8_match :
    _similarity cvC8 (jobTextOf j1C8) = (1, ["analyst", "data", "python", "sql"]) := by
  unfold _similarity
  rw [if_neg (show ¬ (jsTokens (jobTextOf j1C8) = []) from by decide)]
  rw [if_neg (show ¬ ((jsTokens cvC8).dedup = []) from by decide)]
  dsimp only
  have e0 : (jsTokens cvC8).dedup.filter (fun w => (jsTokens (jobTextOf j1C8)).dedup.contains w) =
      ["data", "analyst", "sql", "python"] := by decide
  rw [e0]
  have e2 : (jsTokens cvC8).dedup.length = 4 := by decide
  have e3 : (jsTokens (jobTextOf j1C8)).dedup.length = 4 := by decide
  rw [e2, e3]
  simp only [Prod.mk.injEq]
  constructor
  · rw [show (["data", "analyst", "sql", "python"] : List String).length = 4 from rfl]
    push_cast
    rw [show ((4:ℝ) * 4) = 16 from by norm_num, sqrt_sixteen]
    norm_num
  · decide

/-- In the C8 scenario the unrelated listing shares no token with the
candidate, hence similarity exactly 0 and empty evidence. -/
theorem similarity_c8_unrelated : _similarity cvC8 (jobTextOf j2C8) = (0, []) := by
  unfold _similarity
  rw [if_neg (show ¬ (jsTokens (jobTextOf j2C8) = []) from by decide)]
  rw [if_neg (show ¬ ((jsTokens cvC8).dedup = []) from by decide)]
  dsimp only
  have e0 : (jsTokens cvC8).dedup.filter (fun w => (jsTokens (jobTextOf j2C8)).dedup.contains w) =
      ([] : List String) := by decide
  rw [e0]
  simp only [Prod.mk.injEq]
  constructor
  · rw [show (([] : List String)).length = 0 from rfl]
    push_cast
    rw [zero_div]
    norm_num
  · decide

/-- `_human_score` at similarity 1 for the matching C8 listing: the concave
curve gives 55 + 40 and no bonus fires, so the score is 95. -/
theorem human_score_c8_match : _human_score 1 j1C8 = 95 := by
  unfold _human_score
  rw [Real.one_rpow]
  dsimp only
  rw [mul_one]
  rw [show (40:ℝ) = ((40:ℤ):ℝ) from by norm_num, pythonRound_intCast]
  rw [if_neg (by decide), if_neg (by decide)]
  decide

/-- `_human_score` at similarity 0 for the unrelated C8 listing: the score is
the 55 base with no bonus. -/
theorem human_score_c8_unrelated : _human_score 0 j2C8 = 55 := by
  unfold _human_score
  rw [Real.zero_rpow (by norm_num : (0.65:ℝ) ≠ 0)]
  dsimp only
  rw [mul_zero]
  rw [show (0:ℝ) = ((0:ℤ):ℝ) from by norm_num, pythonRound_intCast]
  rw [if_neg (by decide), if_neg (by decide)]
  decide

/-- C8: for candidate text "data analyst sql python" and two listings, one
whose summary contains "data analyst" and "sql" and one unrelated
("forklift driver warehouse"), `score_jobs` gives the first a strictly
higher calibrated score (95 vs 55) and its matched terms include "data"
(and also "analyst" and "sql"). -/
theorem C8_scenario :
    (score_jobs cvC8 [j1C8, j2C8]).map (fun r => (r.url, r.score, r.why)) =
      [("u1", 95, ["analyst", "data", "python", "sql"]), ("u2", 55, [])] ∧
    (55 : ℤ) < 95 ∧
    ("data" ∈ (["analyst", "data", "python", "sql"] : List String)) ∧
    substrB "data analyst" j1C8.summary = true ∧
    substrB "sql" j1C8.summary = true := by
  refine ⟨?_, by decide, by decide, by decide, by decide⟩
  unfold score_jobs
  simp only [List.map_cons, List.map_nil]
  rw [similarity_c8_match, similarity_c8_unrelated]
  dsimp only
  rw [human_score_c8_match, human_score_c8_unrelated]
  decide

end NIJobs
